import Mathlib

/-!
# Verification of the macro_kpi_update inflation pipeline

Shallow embedding of `src/data_processor.py` (class `DataProcessor`) and
`pipelines/inflation_pipeline.py` (`main`), together with proofs of the
testable properties claimed for them.

Modelling conventions:
* a pandas float cell is a `PFloat`: an exact rational, `+inf`, `-inf`,
  or `NaN` (pandas' null); arithmetic follows IEEE-754 special-value rules,
  with exact rational arithmetic in place of binary rounding;
* a DataFrame column of parsed observations is a `List`; `Series.shift(k)`
  read at row `i` is `shiftCell`;
* `df.sort_values('date')` sorts by the date key; pandas' default sort
  kind (quicksort) is documented unstable, so the source fixes no relative
  order for rows with equal dates — `sortByDate` (an insertion sort) picks
  one admissible tie order, and any property whose truth could depend on
  the tie order is stated over an arbitrary date-sorted permutation
  instead (`temporal_integrity_any_order_spec`);
* string cells use Lean `String` with `trim` / `toLower` for pandas
  `str.strip()` / `str.lower()`.
-/

namespace MacroKpi

/-- A pandas float cell: finite value (exact rational), `+inf`, `-inf`, or
`NaN` (which pandas treats as null/missing). -/
inductive PFloat where
  | num : ℚ → PFloat
  | pinf : PFloat
  | ninf : PFloat
  | nan : PFloat
deriving DecidableEq, Repr

/-- IEEE-754 subtraction on `PFloat` (exact rationals for finite values). -/
def PFloat.sub : PFloat → PFloat → PFloat
  | .nan, _ => .nan
  | _, .nan => .nan
  | .num a, .num b => .num (a - b)
  | .num _, .pinf => .ninf
  | .num _, .ninf => .pinf
  | .pinf, .num _ => .pinf
  | .pinf, .pinf => .nan
  | .pinf, .ninf => .pinf
  | .ninf, .num _ => .ninf
  | .ninf, .pinf => .ninf
  | .ninf, .ninf => .nan

/-- IEEE-754 division on `PFloat`: a nonzero finite value divided by zero is
signed infinity, `0/0` is `NaN`. -/
def PFloat.div : PFloat → PFloat → PFloat
  | .nan, _ => .nan
  | _, .nan => .nan
  | .num a, .num b =>
      if b = 0 then
        if a = 0 then .nan else if 0 < a then .pinf else .ninf
      else .num (a / b)
  | .num _, .pinf => .num 0
  | .num _, .ninf => .num 0
  | .pinf, .num b => if 0 ≤ b then .pinf else .ninf
  | .ninf, .num b => if 0 ≤ b then .ninf else .pinf
  | .pinf, .pinf => .nan
  | .pinf, .ninf => .nan
  | .ninf, .pinf => .nan
  | .ninf, .ninf => .nan

/-- IEEE-754 multiplication on `PFloat`: infinity times zero is `NaN`. -/
def PFloat.mul : PFloat → PFloat → PFloat
  | .nan, _ => .nan
  | _, .nan => .nan
  | .num a, .num b => .num (a * b)
  | .num a, .pinf => if a = 0 then .nan else if 0 < a then .pinf else .ninf
  | .num a, .ninf => if a = 0 then .nan else if 0 < a then .ninf else .pinf
  | .pinf, .num b => if b = 0 then .nan else if 0 < b then .pinf else .ninf
  | .ninf, .num b => if b = 0 then .nan else if 0 < b then .ninf else .pinf
  | .pinf, .pinf => .pinf
  | .pinf, .ninf => .ninf
  | .ninf, .pinf => .ninf
  | .ninf, .ninf => .pinf

/-- A canonical observation: calendar month (encoded as a month index,
`year * 12 + month`) and a parsed decimal value. This is one row of the
`(date, cpi_value)` frame built by `_process_statcan_inflation`. -/
structure Obs where
  date : Nat
  value : ℚ
deriving DecidableEq, Repr

/-- One row of the frame returned by `calculate_inflation_rates`
(columns `date, cpi_value, inflation_mom, inflation_yoy` — the two
intermediate shift columns are dropped by the source). -/
structure RateRow where
  date : Nat
  cpi_value : ℚ
  inflation_mom : PFloat
  inflation_yoy : PFloat
deriving DecidableEq, Repr

/-- The row order used by `df.sort_values('date')`. -/
def dateLe (a b : Obs) : Prop := a.date ≤ b.date

instance : DecidableRel dateLe := fun a b => inferInstanceAs (Decidable (a.date ≤ b.date))
instance : IsTotal Obs dateLe := ⟨fun a b => Nat.le_total a.date b.date⟩
instance : IsTrans Obs dateLe := ⟨fun _ _ _ h1 h2 => Nat.le_trans h1 h2⟩

/-- `df.sort_values('date')`: sort by the date key. pandas' default
quicksort is unstable, so the source leaves the order of rows with equal
dates unspecified; this embedding picks one admissible order. Theorems
whose truth could depend on the tie order are therefore stated over an
arbitrary date-sorted permutation rather than over this particular one. -/
def sortByDate (df : List Obs) : List Obs := List.insertionSort dateLe df

/-- `series.shift(k)` read at row `i`: `NaN` (here `none`) for the first `k`
rows, the value `k` rows earlier otherwise. -/
def shiftCell (k : Nat) (vs : List ℚ) (i : Nat) : Option ℚ :=
  if i < k then none else vs[i - k]?

/-- One cell of `((df['cpi_value'] - prev) / prev) * 100`: `prev = none`
stands for the `NaN` produced by `shift`, which propagates. -/
def rateCell (v : ℚ) (p : Option ℚ) : PFloat :=
  match p with
  | none => PFloat.nan
  | some q => (((PFloat.num v).sub (PFloat.num q)).div (PFloat.num q)).mul (PFloat.num 100)

/-- Row `i` of the frame built by `calculate_inflation_rates` from the
sorted frame `s`: the original `date` and `cpi_value` cells plus the two
rate cells computed from the lag-1 and lag-12 shift columns. -/
def rateRowAt (s : List Obs) (i : Nat) : RateRow :=
  let vs := s.map Obs.value
  { date := (s.getD i ⟨0, 0⟩).date
    cpi_value := vs.getD i 0
    inflation_mom := rateCell (vs.getD i 0) (shiftCell 1 vs i)
    inflation_yoy := rateCell (vs.getD i 0) (shiftCell 12 vs i) }

/-- `DataProcessor.calculate_inflation_rates`: copy, sort by date, add
`inflation_mom` (lag-1) and `inflation_yoy` (lag-12) columns, drop the
intermediate shift columns. Written row-wise: row `i` of the result is
`rateRowAt` of the sorted input. -/
def calculate_inflation_rates (df : List Obs) : List RateRow :=
  (List.range (sortByDate df).length).map (rateRowAt (sortByDate df))

/-- A candidate observation before the dropna step: either field may have
failed to parse (pandas `NaN`/`NaT`, here `none`). -/
structure Candidate where
  date : Option Nat
  value : Option ℚ
deriving DecidableEq, Repr

/-- `result_df.dropna(subset=['date', 'cpi_value'])`: keep only candidates
whose date and value both parsed. -/
def validObs (xs : List Candidate) : List Obs :=
  xs.filterMap fun c =>
    match c.date, c.value with
    | some d, some v => some ⟨d, v⟩
    | _, _ => none

/-- `drop_duplicates(subset=['date'], keep='first')`: keep each row whose
date has not been seen in an earlier row. -/
def dedupFirstAux : List Nat → List Obs → List Obs
  | _, [] => []
  | seen, o :: rest =>
    if o.date ∈ seen then dedupFirstAux seen rest
    else o :: dedupFirstAux (o.date :: seen) rest

/-- The temporal-integrity steps of `_process_statcan_inflation`
(lines 108-115): dropna, sort by date, drop duplicate dates keeping the
first occurrence. -/
def temporal_integrity (xs : List Candidate) : List Obs :=
  dedupFirstAux [] (sortByDate (validObs xs))

/-- ASCII lower-casing of one character (Python `str.lower()` on the ASCII
headers and cells this table contains). -/
def charLower (c : Char) : Char :=
  if 'A' ≤ c ∧ c ≤ 'Z' then Char.ofNat (c.toNat + 32) else c

/-- Python `s.lower()`. -/
def strLower (s : String) : String := ⟨s.data.map charLower⟩

/-- A whitespace character as Python `str.strip()` removes it. -/
def isSpaceChar (c : Char) : Bool := c == ' ' || c == '\t' || c == '\n' || c == '\r'

/-- Strip leading and trailing whitespace from a character list. -/
def trimChars (l : List Char) : List Char :=
  ((l.dropWhile isSpaceChar).reverse.dropWhile isSpaceChar).reverse

/-- Python `s.strip()`. -/
def strTrim (s : String) : String := ⟨trimChars s.data⟩

/-- Does the character list `p` start the character list `c`? -/
def listStartsWith : List Char → List Char → Bool
  | [], _ => true
  | _ :: _, [] => false
  | p :: ps, c :: cs => p == c && listStartsWith ps cs

/-- Python's `pat in s` substring test. -/
def strContains (s pat : String) : Bool :=
  (List.range (s.data.length + 1)).any fun i => listStartsWith pat.data (s.data.drop i)

/-- Split a character list at every occurrence of `sep` (Python
`s.split(sep)` for a one-character separator). -/
def splitCharAux (sep : Char) : List Char → List Char → List (List Char)
  | [], acc => [acc.reverse]
  | c :: cs, acc =>
      if c == sep then acc.reverse :: splitCharAux sep cs []
      else splitCharAux sep cs (c :: acc)

/-- The value of a decimal digit character, `none` for a non-digit. -/
def digitVal (c : Char) : Option Nat :=
  if '0' ≤ c ∧ c ≤ '9' then some (c.toNat - 48) else none

/-- Parse a nonempty all-digit character list as a natural number. -/
def natOfChars (l : List Char) : Option Nat :=
  if l.isEmpty then none
  else l.foldl (fun acc c => acc.bind fun n => (digitVal c).map fun d => n * 10 + d) (some 0)

/-- `pd.to_datetime(s, errors='coerce')` on a `YYYY-MM` or `YYYY-MM-DD`
reference date, projected to the month index `year * 12 + (month - 1)`
(day-of-month insignificant); `none` when the string does not parse. -/
def parseMonth (s : String) : Option Nat :=
  let monthOf : List Char → List Char → Option Nat := fun y m =>
    match natOfChars y, natOfChars m with
    | some yn, some mn => if 1 ≤ mn ∧ mn ≤ 12 then some (yn * 12 + (mn - 1)) else none
    | _, _ => none
  match splitCharAux '-' (trimChars s.data) [] with
  | [y, m] => monthOf y m
  | [y, m, _d] => monthOf y m
  | _ => none

/-- `pd.to_numeric(s, errors='coerce')`: parse a decimal literal to an exact
rational, `none` (pandas `NaN`) when it does not parse — in particular for
the empty string and for the FRED missing-value sentinel `"."`. -/
def parseDecimal (s : String) : Option ℚ :=
  let t := trimChars s.data
  let sgn : ℚ := if t.head? == some '-' then -1 else 1
  let u := if t.head? == some '-' then t.drop 1 else t
  match splitCharAux '.' u [] with
  | [a] => (natOfChars a).map fun n => sgn * (n : ℚ)
  | [a, b] =>
      match natOfChars a, natOfChars b with
      | some n, some f => some (sgn * ((n : ℚ) + (f : ℚ) / (10 : ℚ) ^ b.length))
      | _, _ => none
  | _ => none

/-- A parsed CSV table as `pd.read_csv` produces it: a header row naming the
columns and the data rows, each row's cells aligned with the header. -/
structure Table where
  cols : List String
  rows : List (List String)

/-- `df.columns.str.strip().str.lower()`. -/
def lowerCols (t : Table) : List String := t.cols.map fun c => strLower (strTrim c)

/-- Read the cell of column `c` in a row (`df[c]` at that row). -/
def cellOf (cols : List String) (row : List String) (c : String) : String :=
  row.getD (cols.indexOf c) ""

/-- The `product_col` search of `_process_statcan_inflation` (lines 80-84):
the first column whose name contains the substring `product`. -/
def findProductCol (cols : List String) : Option String :=
  cols.find? fun c => strContains (strLower c) "product"

/-- The candidate observations built from the filtered rows (lines 96-106):
`date = to_datetime(ref_date, coerce)`, `cpi_value = to_numeric(value, coerce)`. -/
def statcanCandidates (cols : List String) (rows : List (List String)) : List Candidate :=
  rows.map fun r => ⟨parseMonth (cellOf cols r "ref_date"), parseDecimal (cellOf cols r "value")⟩

/-- `DataProcessor._process_statcan_inflation`, from the parsed CSV table to
the canonical series: lower-case the headers, require `geo`, filter to
`geo.lower() == 'canada'`, filter to the exact trimmed category
`'All-items'` when a product column exists (and silently skip the filter
otherwise), require `ref_date` and `value`, parse both, then run the
temporal-integrity steps. Errors are the `ValueError` messages raised. -/
def process_statcan (t : Table) : Except String (List Obs) :=
  let cols := lowerCols t
  if "geo" ∉ cols then Except.error "GEO column not found in data"
  else
    let canadaRows := t.rows.filter fun r => strLower (cellOf cols r "geo") == "canada"
    let catRows :=
      match findProductCol cols with
      | some pc => canadaRows.filter fun r => strTrim (cellOf cols r pc) == "All-items"
      | none => canadaRows
    if "ref_date" ∉ cols then Except.error "REF_DATE column not found in data"
    else if "value" ∉ cols then Except.error "VALUE column not found in data"
    else Except.ok (temporal_integrity (statcanCandidates cols catRows))

/-- One record of the FRED `observations` JSON array; either field may be
absent (`obs.get(...)` returning `None`). -/
structure FredObsJson where
  date : Option String
  value : Option String
deriving DecidableEq, Repr

/-- One row of the frame returned by `_process_fred_inflation`: the parsed
date (`none` is `NaT`) and the coerced numeric value (`none` is `NaN`). -/
structure FredRow where
  date : Option Nat
  cpi_value : Option ℚ
deriving DecidableEq, Repr

/-- `pd.to_datetime` on one FRED date cell: `None` becomes `NaT`, an
unparseable string raises, a valid date parses to its month. -/
def fredDateCell (od : Option String) : Except String (Option Nat) :=
  match od with
  | none => Except.ok none
  | some s =>
      match parseMonth s with
      | none => Except.error "to_datetime: unable to parse date"
      | some d => Except.ok (some d)

/-- `DataProcessor._process_fred_inflation`: project each observation's
`date`/`value` fields, `pd.to_datetime(df['date'])` via `fredDateCell`
(raising on an unparseable date string),
`pd.to_numeric(df['cpi_value'], errors='coerce')` for the value.
No row is dropped, sorted, or deduplicated here. -/
def process_fred : List FredObsJson → Except String (List FredRow)
  | [] => Except.ok []
  | o :: rest =>
      match fredDateCell o.date with
      | Except.error e => Except.error e
      | Except.ok d =>
          match process_fred rest with
          | Except.error e => Except.error e
          | Except.ok rows => Except.ok (⟨d, o.value.bind parseDecimal⟩ :: rows)

/-- The columns of the frame `calculate_inflation_rates` returns: the input
columns, plus the four added columns, minus the two dropped by line 194. -/
def rate_result_columns : List String :=
  (["date", "cpi_value"] ++ ["cpi_prev_month", "inflation_mom", "cpi_prev_year", "inflation_yoy"]).filter
    fun c => c ∉ ["cpi_prev_month", "cpi_prev_year"]

/-- `df[c]`: succeeds only when the column exists, otherwise the `KeyError`
pandas raises. -/
def requireCol (cols : List String) (c : String) : Except String String :=
  if c ∈ cols then Except.ok c else Except.error c

/-- The output-formatting step of `pipelines/inflation_pipeline.py`
(lines 74-82): build the presentation frame by reading the listed columns
of the rate frame. -/
def format_output_cols (cols : List String) : Except String (List String) :=
  match requireCol cols "date" with
  | Except.error c => Except.error c
  | Except.ok _ =>
    match requireCol cols "cpi_value" with
    | Except.error c => Except.error c
    | Except.ok _ =>
      match requireCol cols "inflation_yoy" with
      | Except.error c => Except.error c
      | Except.ok _ =>
        match requireCol cols "inflation_mom" with
        | Except.error c => Except.error c
        | Except.ok _ =>
          match requireCol cols "trend_3m" with
          | Except.error c => Except.error c
          | Except.ok _ =>
            Except.ok ["Update Date", "Yr", "Mnth", "Inflation Value", "YoY Value",
              "MoM Value", "3 Month Trend"]

/-- `main` of `pipelines/inflation_pipeline.py` for the statcan source,
from the parsed CSV table onward: process, return early with no output when
the frame is empty (lines 63-65), otherwise calculate rates and format the
output frame. `Except.ok none` is the clean no-output early return;
`Except.ok (some header)` stands for output written with those columns. -/
def run_pipeline_statcan (t : Table) : Except String (Option (List String)) :=
  match process_statcan t with
  | Except.error e => Except.error e
  | Except.ok df =>
    if df.isEmpty then Except.ok none
    else
      match format_output_cols rate_result_columns with
      | Except.error c => Except.error c
      | Except.ok header => Except.ok (some header)

/-- A concrete bulk-export table with several geographies and category
variants: only the `Canada` (case-insensitively) rows whose trimmed
category is exactly `All-items` should survive normalization. -/
def multiGeoTable : Table :=
  ⟨["GEO", "Products and product groups", "REF_DATE", "VALUE"],
    [["Canada", "All-items", "2024-01", "100"],
     ["Canada", "All-items excluding food", "2024-01", "200"],
     ["Ontario", "All-items", "2024-01", "300"],
     ["CANADA", " All-items ", "2024-02", "110"]]⟩

example :
    process_statcan ⟨["GEO", "REF_DATE", "VALUE"], [["Ontario", "2024-01", "100"]]⟩
      = Except.ok [] := by
  simp +decide [process_statcan, lowerCols, strLower, strTrim, trimChars, charLower,
    isSpaceChar, cellOf, findProductCol, strContains, listStartsWith, statcanCandidates,
    temporal_integrity, validObs, sortByDate, dedupFirstAux]

example :
    process_statcan ⟨["GEO", "REF_DATE", "VALUE"], [["Canada", "2024-01", "100"]]⟩
      = Except.ok [⟨2024 * 12, 100⟩] := by
  simp +decide [process_statcan, lowerCols, strLower, strTrim, trimChars, charLower,
    isSpaceChar, cellOf, findProductCol, strContains, listStartsWith, statcanCandidates,
    temporal_integrity, validObs, sortByDate, dedupFirstAux, parseMonth, parseDecimal,
    splitCharAux, natOfChars, digitVal, List.insertionSort, List.orderedInsert, dateLe]

example :
    process_fred [⟨some "2024-05-01", some "."⟩]
      = Except.ok [⟨some (2024 * 12 + 4), none⟩] := by
  simp +decide [process_fred, fredDateCell, parseMonth, parseDecimal, splitCharAux,
    natOfChars, digitVal, trimChars, isSpaceChar]

example : (calculate_inflation_rates [⟨0, 1⟩, ⟨1, 2⟩]).map RateRow.inflation_mom
    = [PFloat.nan, PFloat.num 100] := by
  norm_num [calculate_inflation_rates, rateRowAt, sortByDate, List.insertionSort,
    List.orderedInsert, dateLe, shiftCell, rateCell, PFloat.sub, PFloat.div, PFloat.mul,
    List.range_succ]

example : (calculate_inflation_rates [⟨0, 0⟩, ⟨1, 1⟩]).map RateRow.inflation_mom
    = [PFloat.nan, PFloat.pinf] := by
  norm_num [calculate_inflation_rates, rateRowAt, sortByDate, List.insertionSort,
    List.orderedInsert, dateLe, shiftCell, rateCell, PFloat.sub, PFloat.div, PFloat.mul,
    List.range_succ]

theorem length_sortByDate (df : List Obs) : (sortByDate df).length = df.length :=
  List.length_insertionSort _ _

theorem sorted_sortByDate (df : List Obs) : (sortByDate df).Sorted dateLe :=
  List.sorted_insertionSort _ _

theorem perm_sortByDate (df : List Obs) : (sortByDate df).Perm df :=
  List.perm_insertionSort _ _

theorem length_calculate_inflation_rates (df : List Obs) :
    (calculate_inflation_rates df).length = df.length := by
  simp [calculate_inflation_rates, length_sortByDate]

/-- Reading row `i` of the rate frame: it exists iff `i` is in range, and is
`rateRowAt` of the sorted input. -/
theorem calc_lookup (df : List Obs) (i : Nat) (r : RateRow)
    (h : (calculate_inflation_rates df)[i]? = some r) :
    i < df.length ∧ r = rateRowAt (sortByDate df) i := by
  rcases List.getElem?_eq_some.mp h with ⟨hi, he⟩
  have hlen : i < df.length := by
    simpa [length_calculate_inflation_rates] using hi
  refine ⟨hlen, ?_⟩
  rw [← he]
  simp [calculate_inflation_rates, List.getElem_map, List.getElem_range]

theorem shiftCell_of_lt {k i : Nat} (vs : List ℚ) (h : i < k) : shiftCell k vs i = none := by
  simp [shiftCell, h]

theorem shiftCell_of_ge {k i : Nat} (vs : List ℚ) (hk : k ≤ i) (h : i < vs.length) :
    shiftCell k vs i = some (vs.getD (i - k) 0) := by
  have hik : i - k < vs.length := lt_of_le_of_lt (Nat.sub_le i k) h
  rw [shiftCell, if_neg (Nat.not_lt.mpr hk), List.getElem?_eq_getElem hik,
    List.getD_eq_getElem vs 0 hik]

/-- Case analysis of one rate cell with an existing prior value: division by
a zero prior gives `NaN` or signed infinity, never a finite substitute. -/
theorem rateCell_some (v p : ℚ) :
    rateCell v (some p) =
      if p = 0 then
        if v = 0 then PFloat.nan else if 0 < v then PFloat.pinf else PFloat.ninf
      else PFloat.num ((v - p) / p * 100) := by
  by_cases hp : p = 0
  · subst hp
    by_cases hv : v = 0
    · subst hv; simp [rateCell, PFloat.sub, PFloat.div, PFloat.mul]
    · rcases lt_trichotomy v 0 with hlt | heq | hgt
      · have : ¬ (0 : ℚ) < v := not_lt.mpr (le_of_lt hlt)
        simp [rateCell, PFloat.sub, PFloat.div, PFloat.mul, hv, this]
      · exact absurd heq hv
      · simp [rateCell, PFloat.sub, PFloat.div, PFloat.mul, hv, hgt]
  · simp [rateCell, PFloat.sub, PFloat.div, PFloat.mul, hp]

/-- **C1** (amended): for every canonical (date-sorted) series handed to the
rate calculator, `inflation_mom[i]` is null (`NaN`) iff `i = 0`, or
`value[i-1] = 0` and `value[i] = 0`; when `value[i-1] = 0` and
`value[i] ≠ 0` it is signed infinity, not null; otherwise it equals
`(value[i] - value[i-1]) / value[i-1] * 100` exactly. -/
theorem inflation_mom_characterization (df : List Obs) (hs : df.Sorted dateLe)
    (i : Nat) (r : RateRow) (h : (calculate_inflation_rates df)[i]? = some r) :
    r.inflation_mom =
      if i = 0 then PFloat.nan
      else
        if (df.map Obs.value).getD (i - 1) 0 = 0 then
          if (df.map Obs.value).getD i 0 = 0 then PFloat.nan
          else if 0 < (df.map Obs.value).getD i 0 then PFloat.pinf
          else PFloat.ninf
        else
          PFloat.num (((df.map Obs.value).getD i 0 - (df.map Obs.value).getD (i - 1) 0)
            / (df.map Obs.value).getD (i - 1) 0 * 100) := by
  rcases calc_lookup df i r h with ⟨hi, hr⟩
  have hsort : sortByDate df = df := List.Sorted.insertionSort_eq hs
  subst hr
  rw [rateRowAt, hsort]
  by_cases h0 : i = 0
  · subst h0
    simp [shiftCell_of_lt _ (Nat.zero_lt_one), rateCell]
  · have hk : 1 ≤ i := Nat.one_le_iff_ne_zero.mpr h0
    have hvl : i < (df.map Obs.value).length := by simpa using hi
    rw [shiftCell_of_ge _ hk hvl, rateCell_some, if_neg h0]

/-- **C1** counterexample to the claim as stated: in the series
`[(0, 0), (1, 1)]` the prior value at row 1 is zero, so the claim demands a
null `inflation_mom[1]`; the code produces `+inf`. -/
theorem inflation_mom_zero_prior_counterexample :
    (calculate_inflation_rates [⟨0, 0⟩, ⟨1, 1⟩]).map RateRow.inflation_mom
      = [PFloat.nan, PFloat.pinf] ∧ PFloat.pinf ≠ PFloat.nan := by
  constructor
  · norm_num [calculate_inflation_rates, rateRowAt, sortByDate, List.insertionSort,
      List.orderedInsert, dateLe, shiftCell, rateCell, PFloat.sub, PFloat.div, PFloat.mul,
      List.range_succ]
  · decide

/-- Witness for `inflation_mom_characterization` at the concrete series
`[(0, 1), (1, 2)]`, row 1: the rate is `(2-1)/1*100 = 100`. -/
theorem inflation_mom_characterization_witness :
    ((calculate_inflation_rates [⟨0, 1⟩, ⟨1, 2⟩])[1]?
      = some ⟨1, 2, PFloat.num 100, PFloat.nan⟩)
    ∧ (⟨1, 2, PFloat.num 100, PFloat.nan⟩ : RateRow).inflation_mom = PFloat.num 100 := by
  have hs : ([⟨0, 1⟩, ⟨1, 2⟩] : List Obs).Sorted dateLe := by
    simp [List.Sorted, dateLe]
  have hl : (calculate_inflation_rates [⟨0, 1⟩, ⟨1, 2⟩])[1]?
      = some ⟨1, 2, PFloat.num 100, PFloat.nan⟩ := by
    norm_num [calculate_inflation_rates, rateRowAt, sortByDate, List.insertionSort,
      List.orderedInsert, dateLe, shiftCell, rateCell, PFloat.sub, PFloat.div, PFloat.mul,
      List.range_succ]
  refine ⟨hl, ?_⟩
  have hc := inflation_mom_characterization _ hs 1 _ hl
  rw [hc]
  norm_num [List.getD]

/-- **C2** (amended): for every canonical (date-sorted) series,
`inflation_yoy[i]` is null (`NaN`) iff `i < 12`, or `value[i-12] = 0` and
`value[i] = 0`; when `value[i-12] = 0` and `value[i] ≠ 0` it is signed
infinity, not null; otherwise it equals the positional 12-row-lag formula
`(value[i] - value[i-12]) / value[i-12] * 100` exactly. -/
theorem inflation_yoy_characterization (df : List Obs) (hs : df.Sorted dateLe)
    (i : Nat) (r : RateRow) (h : (calculate_inflation_rates df)[i]? = some r) :
    r.inflation_yoy =
      if i < 12 then PFloat.nan
      else
        if (df.map Obs.value).getD (i - 12) 0 = 0 then
          if (df.map Obs.value).getD i 0 = 0 then PFloat.nan
          else if 0 < (df.map Obs.value).getD i 0 then PFloat.pinf
          else PFloat.ninf
        else
          PFloat.num (((df.map Obs.value).getD i 0 - (df.map Obs.value).getD (i - 12) 0)
            / (df.map Obs.value).getD (i - 12) 0 * 100) := by
  rcases calc_lookup df i r h with ⟨hi, hr⟩
  have hsort : sortByDate df = df := List.Sorted.insertionSort_eq hs
  subst hr
  rw [rateRowAt, hsort]
  by_cases h0 : i < 12
  · simp [shiftCell_of_lt _ h0, rateCell, h0]
  · have hk : 12 ≤ i := Nat.not_lt.mp h0
    have hvl : i < (df.map Obs.value).length := by simpa using hi
    rw [shiftCell_of_ge _ hk hvl, rateCell_some, if_neg h0]

/-- **C2** counterexample to the claim as stated: in a 13-row series whose
row-0 value is zero, the 12-lag prior of row 12 is zero, so the claim
demands a null `inflation_yoy[12]`; the code produces `+inf`. -/
theorem inflation_yoy_zero_prior_counterexample :
    (calculate_inflation_rates
        [⟨0, 0⟩, ⟨1, 1⟩, ⟨2, 1⟩, ⟨3, 1⟩, ⟨4, 1⟩, ⟨5, 1⟩, ⟨6, 1⟩, ⟨7, 1⟩, ⟨8, 1⟩, ⟨9, 1⟩,
          ⟨10, 1⟩, ⟨11, 1⟩, ⟨12, 1⟩]).map RateRow.inflation_yoy
      = [PFloat.nan, PFloat.nan, PFloat.nan, PFloat.nan, PFloat.nan, PFloat.nan, PFloat.nan,
          PFloat.nan, PFloat.nan, PFloat.nan, PFloat.nan, PFloat.nan, PFloat.pinf]
    ∧ PFloat.pinf ≠ PFloat.nan := by
  constructor
  · norm_num [calculate_inflation_rates, rateRowAt, sortByDate, List.insertionSort,
      List.orderedInsert, dateLe, shiftCell, rateCell, PFloat.sub, PFloat.div, PFloat.mul,
      List.range_succ]
  · decide

/-- Witness for `inflation_yoy_characterization` at a concrete 13-row
series: row 12 has `yoy = (110-100)/100*100 = 10`. -/
theorem inflation_yoy_characterization_witness :
    ((calculate_inflation_rates
        [⟨0, 100⟩, ⟨1, 100⟩, ⟨2, 100⟩, ⟨3, 100⟩, ⟨4, 100⟩, ⟨5, 100⟩, ⟨6, 100⟩, ⟨7, 100⟩,
          ⟨8, 100⟩, ⟨9, 100⟩, ⟨10, 100⟩, ⟨11, 100⟩, ⟨12, 110⟩])[12]?
      = some ⟨12, 110, PFloat.num 10, PFloat.num 10⟩)
    ∧ (⟨12, 110, PFloat.num 10, PFloat.num 10⟩ : RateRow).inflation_yoy = PFloat.num 10 := by
  have hs : ([⟨0, 100⟩, ⟨1, 100⟩, ⟨2, 100⟩, ⟨3, 100⟩, ⟨4, 100⟩, ⟨5, 100⟩, ⟨6, 100⟩, ⟨7, 100⟩,
      ⟨8, 100⟩, ⟨9, 100⟩, ⟨10, 100⟩, ⟨11, 100⟩, ⟨12, 110⟩] : List Obs).Sorted dateLe := by
    simp [List.Sorted, dateLe]
  have hl : (calculate_inflation_rates
        [⟨0, 100⟩, ⟨1, 100⟩, ⟨2, 100⟩, ⟨3, 100⟩, ⟨4, 100⟩, ⟨5, 100⟩, ⟨6, 100⟩, ⟨7, 100⟩,
          ⟨8, 100⟩, ⟨9, 100⟩, ⟨10, 100⟩, ⟨11, 100⟩, ⟨12, 110⟩])[12]?
      = some ⟨12, 110, PFloat.num 10, PFloat.num 10⟩ := by
    norm_num [calculate_inflation_rates, rateRowAt, sortByDate, List.insertionSort,
      List.orderedInsert, dateLe, shiftCell, rateCell, PFloat.sub, PFloat.div, PFloat.mul,
      List.range_succ]
  refine ⟨hl, ?_⟩
  have hc := inflation_yoy_characterization _ hs 12 _ hl
  rw [hc]
  norm_num [List.getD]

/-- **C3**: the rate-calculation stage never produces a `trend_3m` column —
its result columns are exactly `date, cpi_value, inflation_mom,
inflation_yoy` — and the pipeline's output formatting, which reads
`df['trend_3m']`, therefore fails with a `KeyError` on any nonempty run
(shown on a concrete one-row table) instead of emitting a 3-month trend. -/
theorem trend_3m_column_missing :
    "trend_3m" ∉ rate_result_columns
    ∧ rate_result_columns = ["date", "cpi_value", "inflation_mom", "inflation_yoy"]
    ∧ run_pipeline_statcan ⟨["GEO", "REF_DATE", "VALUE"], [["Canada", "2024-01", "100"]]⟩
        = Except.error "trend_3m" := by
  refine ⟨by decide, by decide, ?_⟩
  simp +decide [run_pipeline_statcan, process_statcan, lowerCols, strLower, strTrim, trimChars,
    charLower, isSpaceChar, cellOf, findProductCol, strContains, listStartsWith,
    statcanCandidates, temporal_integrity, validObs, sortByDate, dedupFirstAux, parseMonth,
    parseDecimal, splitCharAux, natOfChars, digitVal, List.insertionSort, List.orderedInsert,
    dateLe, format_output_cols, requireCol, rate_result_columns]

theorem calc_map_date_value (df : List Obs) :
    (calculate_inflation_rates df).map (fun r => (r.date, r.cpi_value))
      = (sortByDate df).map (fun o => (o.date, o.value)) := by
  apply List.ext_getElem
  · simp [calculate_inflation_rates]
  · intro n h1 h2
    have hn : n < (sortByDate df).length := by simpa using h2
    simp only [calculate_inflation_rates, List.getElem_map, List.getElem_range, rateRowAt]
    rw [List.getD_eq_getElem _ _ hn]
    have hvn : n < ((sortByDate df).map Obs.value).length := by simpa using hn
    rw [List.getD_eq_getElem _ _ hvn, List.getElem_map]

theorem calc_map_date (df : List Obs) :
    (calculate_inflation_rates df).map RateRow.date = (sortByDate df).map Obs.date := by
  have h := congrArg (List.map Prod.fst) (calc_map_date_value df)
  simpa [List.map_map, Function.comp] using h

/-- **C4** (amended): the rate calculator performs no precondition check and
raises no `PreconditionError`; for any input — monotonic or not — it
re-sorts by date itself and produces a rate row for every input row, with
the output dates ascending. -/
theorem calculate_rates_sorts_and_never_fails (df : List Obs) :
    (calculate_inflation_rates df).map RateRow.date = (sortByDate df).map Obs.date
    ∧ ((calculate_inflation_rates df).map RateRow.date).Sorted (· ≤ ·)
    ∧ (calculate_inflation_rates df).length = df.length := by
  refine ⟨calc_map_date df, ?_, length_calculate_inflation_rates df⟩
  rw [calc_map_date df]
  exact List.pairwise_map.mpr (sorted_sortByDate df)

/-- **C4** counterexample to the claim as stated: given a non-monotonic
input (dates 5 then 3), the rate calculator does not fail — it silently
sorts and returns a full rate frame. -/
theorem calculate_rates_nonmonotonic_counterexample :
    (calculate_inflation_rates [⟨5, 10⟩, ⟨3, 20⟩]).map RateRow.date = [3, 5]
    ∧ (calculate_inflation_rates [⟨5, 10⟩, ⟨3, 20⟩]).length = 2 := by
  constructor
  · norm_num [calculate_inflation_rates, rateRowAt, sortByDate, List.insertionSort,
      List.orderedInsert, dateLe, List.range_succ]
  · norm_num [length_calculate_inflation_rates]

/-- **C10**: `calculate_inflation_rates` is a pure function of its input (the
embedding of `df.copy()` followed by column additions): the result has
exactly one row per input row, and its `date` and `cpi_value` columns are
exactly the input's columns sorted by date — a permutation of the input
rows — with only rate columns added. -/
theorem calculate_rates_preserves_rows (df : List Obs) :
    (calculate_inflation_rates df).length = df.length
    ∧ (calculate_inflation_rates df).map (fun r => (r.date, r.cpi_value))
        = (sortByDate df).map (fun o => (o.date, o.value))
    ∧ (sortByDate df).Perm df :=
  ⟨length_calculate_inflation_rates df, calc_map_date_value df, perm_sortByDate df⟩

/-- **C5** counterexample to the claim as stated: a bulk-export table with
no product/category column (`GEO, REF_DATE, VALUE` only) does not fail with
a schema error — normalization silently proceeds with no category filter
and returns data. -/
theorem no_product_col_counterexample :
    findProductCol (lowerCols ⟨["GEO", "REF_DATE", "VALUE"], [["Canada", "2024-01", "100"]]⟩)
        = none
    ∧ process_statcan ⟨["GEO", "REF_DATE", "VALUE"], [["Canada", "2024-01", "100"]]⟩
        = Except.ok [⟨2024 * 12, 100⟩] := by
  constructor
  · decide
  · simp +decide [process_statcan, lowerCols, strLower, strTrim, trimChars, charLower,
      isSpaceChar, cellOf, findProductCol, strContains, listStartsWith, statcanCandidates,
      temporal_integrity, validObs, sortByDate, dedupFirstAux, parseMonth, parseDecimal,
      splitCharAux, natOfChars, digitVal, List.insertionSort, List.orderedInsert, dateLe]

/-- **C5** (amended): when no column name contains the substring `product`,
`_process_statcan_inflation` raises no error at all — provided the
`geo`, `ref_date` and `value` columns exist it succeeds, applying only the
geography filter and no category filter. -/
theorem no_product_col_skips_filter (t : Table)
    (hg : "geo" ∈ lowerCols t) (hr : "ref_date" ∈ lowerCols t) (hv : "value" ∈ lowerCols t)
    (hp : findProductCol (lowerCols t) = none) :
    process_statcan t =
      Except.ok (temporal_integrity (statcanCandidates (lowerCols t)
        (t.rows.filter fun r => strLower (cellOf (lowerCols t) r "geo") == "canada"))) := by
  simp only [process_statcan, hp, if_neg (not_not_intro hg), if_neg (not_not_intro hr),
    if_neg (not_not_intro hv)]

/-- Witness for `no_product_col_skips_filter` at the concrete
`GEO, REF_DATE, VALUE` table. -/
theorem no_product_col_skips_filter_witness :
    ("geo" ∈ lowerCols ⟨["GEO", "REF_DATE", "VALUE"], [["Canada", "2024-01", "100"]]⟩
    ∧ "ref_date" ∈ lowerCols ⟨["GEO", "REF_DATE", "VALUE"], [["Canada", "2024-01", "100"]]⟩
    ∧ "value" ∈ lowerCols ⟨["GEO", "REF_DATE", "VALUE"], [["Canada", "2024-01", "100"]]⟩
    ∧ findProductCol (lowerCols ⟨["GEO", "REF_DATE", "VALUE"], [["Canada", "2024-01", "100"]]⟩)
        = none)
    ∧ process_statcan ⟨["GEO", "REF_DATE", "VALUE"], [["Canada", "2024-01", "100"]]⟩
      = Except.ok (temporal_integrity (statcanCandidates
          (lowerCols ⟨["GEO", "REF_DATE", "VALUE"], [["Canada", "2024-01", "100"]]⟩)
          ((⟨["GEO", "REF_DATE", "VALUE"], [["Canada", "2024-01", "100"]]⟩ : Table).rows.filter
            fun r =>
              strLower (cellOf
                (lowerCols ⟨["GEO", "REF_DATE", "VALUE"], [["Canada", "2024-01", "100"]]⟩)
                r "geo") == "canada"))) :=
  ⟨⟨by decide, by decide, by decide, by decide⟩,
    no_product_col_skips_filter _ (by decide) (by decide) (by decide) (by decide)⟩

/-- **C9** counterexample to the claim as stated: a bulk-export table whose
only row is for a non-target geography yields `Except.ok []` — no
`EmptySeriesError` (nor any other error) is raised anywhere in the code. -/
theorem empty_series_no_error_counterexample :
    process_statcan ⟨["GEO", "REF_DATE", "VALUE"], [["Ontario", "2024-01", "100"]]⟩
        = Except.ok []
    ∧ run_pipeline_statcan ⟨["GEO", "REF_DATE", "VALUE"], [["Ontario", "2024-01", "100"]]⟩
        = Except.ok none := by
  have hproc : process_statcan ⟨["GEO", "REF_DATE", "VALUE"], [["Ontario", "2024-01", "100"]]⟩
      = Except.ok [] := by
    simp +decide [process_statcan, lowerCols, strLower, strTrim, trimChars, charLower,
      isSpaceChar, cellOf, findProductCol, strContains, listStartsWith, statcanCandidates,
      temporal_integrity, validObs, sortByDate, dedupFirstAux]
  exact ⟨hproc, by simp [run_pipeline_statcan, hproc]⟩

/-- **C9** (amended): when processing leaves zero rows the processor returns
an empty frame without raising, and the caller's `df.empty` check makes it
terminate cleanly without producing or overwriting any output file. -/
theorem empty_series_clean_return (t : Table) (h : process_statcan t = Except.ok []) :
    run_pipeline_statcan t = Except.ok none := by
  simp [run_pipeline_statcan, h]

/-- Witness for `empty_series_clean_return` at the concrete Ontario-only
table. -/
theorem empty_series_clean_return_witness :
    process_statcan ⟨["GEO", "REF_DATE", "VALUE"], [["Ontario", "2024-01", "100"]]⟩
        = Except.ok []
    ∧ run_pipeline_statcan ⟨["GEO", "REF_DATE", "VALUE"], [["Ontario", "2024-01", "100"]]⟩
        = Except.ok none := by
  have hproc : process_statcan ⟨["GEO", "REF_DATE", "VALUE"], [["Ontario", "2024-01", "100"]]⟩
      = Except.ok [] := by
    simp +decide [process_statcan, lowerCols, strLower, strTrim, trimChars, charLower,
      isSpaceChar, cellOf, findProductCol, strContains, listStartsWith, statcanCandidates,
      temporal_integrity, validObs, sortByDate, dedupFirstAux]
  exact ⟨hproc, empty_series_clean_return _ hproc⟩

theorem dedupFirstAux_sublist (seen : List Nat) (l : List Obs) :
    (dedupFirstAux seen l).Sublist l := by
  induction l generalizing seen with
  | nil => simp [dedupFirstAux]
  | cons x rest ih =>
    rw [dedupFirstAux]
    by_cases hx : x.date ∈ seen
    · rw [if_pos hx]; exact (ih seen).cons x
    · rw [if_neg hx]; exact (ih (x.date :: seen)).cons₂ x

theorem dedupFirstAux_date_not_seen (seen : List Nat) (l : List Obs) :
    ∀ o ∈ dedupFirstAux seen l, o.date ∉ seen := by
  induction l generalizing seen with
  | nil => simp [dedupFirstAux]
  | cons x rest ih =>
    rw [dedupFirstAux]
    by_cases hx : x.date ∈ seen
    · rw [if_pos hx]; exact ih seen
    · rw [if_neg hx]
      intro o ho
      rcases List.mem_cons.mp ho with rfl | ho'
      · exact hx
      · have hns := ih (x.date :: seen) o ho'
        exact fun hs => hns (List.mem_cons_of_mem _ hs)

theorem dedupFirstAux_pairwise_ne (seen : List Nat) (l : List Obs) :
    (dedupFirstAux seen l).Pairwise (fun a b => a.date ≠ b.date) := by
  induction l generalizing seen with
  | nil => simp [dedupFirstAux]
  | cons x rest ih =>
    rw [dedupFirstAux]
    by_cases hx : x.date ∈ seen
    · rw [if_pos hx]; exact ih seen
    · rw [if_neg hx]
      refine List.Pairwise.cons ?_ (ih (x.date :: seen))
      intro b hb he
      have hns := dedupFirstAux_date_not_seen (x.date :: seen) rest b hb
      exact hns (by rw [← he]; exact List.mem_cons_self _ _)

theorem dedupFirstAux_covers (seen : List Nat) (l : List Obs) (p : Obs) (hp : p ∈ l) :
    p.date ∈ seen ∨ ∃ o ∈ dedupFirstAux seen l, o.date = p.date := by
  induction l generalizing seen with
  | nil => cases hp
  | cons x rest ih =>
    rw [dedupFirstAux]
    by_cases hx : x.date ∈ seen
    · rw [if_pos hx]
      rcases List.mem_cons.mp hp with rfl | hp'
      · exact Or.inl hx
      · exact ih seen hp'
    · rw [if_neg hx]
      rcases List.mem_cons.mp hp with rfl | hp'
      · exact Or.inr ⟨p, List.mem_cons_self _ _, rfl⟩
      · rcases ih (x.date :: seen) hp' with hmem | ⟨o, ho, hd⟩
        · rcases List.mem_cons.mp hmem with heq | hseen
          · exact Or.inr ⟨x, List.mem_cons_self _ _, heq.symm⟩
          · exact Or.inl hseen
        · exact Or.inr ⟨o, List.mem_cons_of_mem _ ho, hd⟩

theorem temporal_integrity_mem_valid (xs : List Candidate) (o : Obs)
    (h : o ∈ temporal_integrity xs) : o ∈ validObs xs :=
  (perm_sortByDate _).mem_iff.mp ((dedupFirstAux_sublist [] _).subset h)

/-- **C6** (amended): for any candidate set and any date-sorted permutation
`l` of the valid candidates — `df.sort_values('date')` uses pandas'
default quicksort, which is documented unstable, so the order of rows with
equal dates after the sort is unspecified and every such `l` is an
admissible sort result; `temporal_integrity` is the instance
`l := sortByDate (validObs xs)` — the duplicate-drop step yields a series
strictly ascending by month (hence exactly one row per distinct month);
each surviving row is one of the valid candidates for its month, and every
month present among the valid candidates survives. Which of two different
values for a duplicated month survives depends on the unspecified tie
order, so the first-encountered value is not guaranteed. -/
theorem temporal_integrity_any_order_spec (xs : List Candidate) (l : List Obs)
    (hsort : l.Sorted dateLe) (hperm : l.Perm (validObs xs)) :
    ((dedupFirstAux [] l).map Obs.date).Sorted (· < ·)
    ∧ (∀ o ∈ dedupFirstAux [] l, o ∈ validObs xs)
    ∧ (∀ p ∈ validObs xs, ∃ o ∈ dedupFirstAux [] l, o.date = p.date) := by
  refine ⟨?_, ?_, ?_⟩
  · have hsorted : (dedupFirstAux [] l).Pairwise dateLe :=
      List.Pairwise.sublist (dedupFirstAux_sublist [] l) hsort
    have hne := dedupFirstAux_pairwise_ne [] l
    refine List.pairwise_map.mpr ((hsorted.and hne).imp ?_)
    intro a b hab
    exact lt_of_le_of_ne hab.1 hab.2
  · intro o ho
    exact hperm.mem_iff.mp ((dedupFirstAux_sublist [] l).subset ho)
  · intro p hp
    rcases dedupFirstAux_covers [] l p (hperm.mem_iff.mpr hp) with hmem | hex
    · cases hmem
    · exact hex

/-- **C6** counterexample to the claim as stated: the candidate set lists
month 5 first with value 1, then with value 2. `[⟨5, 2⟩, ⟨5, 1⟩]` is an
admissible result of the unspecified-tie-order `sort_values('date')` over
those valid candidates (it is date-sorted and a permutation of them), and
the duplicate-drop step applied to it keeps the row with value 2 — not the
first-encountered value 1 — so the code does not guarantee that the
first-encountered value survives a duplicated month. -/
theorem temporal_integrity_first_value_counterexample :
    ([⟨5, 2⟩, ⟨5, 1⟩] : List Obs).Sorted dateLe
    ∧ ([⟨5, 2⟩, ⟨5, 1⟩] : List Obs).Perm (validObs [⟨some 5, some 1⟩, ⟨some 5, some 2⟩])
    ∧ dedupFirstAux [] [⟨5, 2⟩, ⟨5, 1⟩] = [⟨5, 2⟩]
    ∧ ((⟨5, 2⟩ : Obs).value = 2 ∧ (2 : ℚ) ≠ 1) := by
  refine ⟨?_, ?_, rfl, rfl, by norm_num⟩
  · simp [List.Sorted, dateLe]
  · rw [show validObs [⟨some 5, some 1⟩, ⟨some 5, some 2⟩] = [⟨5, 1⟩, ⟨5, 2⟩] from rfl]
    exact List.Perm.swap _ _ _

/-- Witness for `temporal_integrity_any_order_spec`, instantiated at the
counterexample's tie order (one the embedding's own insertion sort would
not produce): the hypotheses hold there, and the deduplicated output is
strictly ascending with its surviving row among the valid candidates. -/
theorem temporal_integrity_any_order_spec_witness :
    (([⟨5, 2⟩, ⟨5, 1⟩] : List Obs).Sorted dateLe
      ∧ ([⟨5, 2⟩, ⟨5, 1⟩] : List Obs).Perm (validObs [⟨some 5, some 1⟩, ⟨some 5, some 2⟩]))
    ∧ ((dedupFirstAux [] [⟨5, 2⟩, ⟨5, 1⟩]).map Obs.date).Sorted (· < ·)
    ∧ (⟨5, 2⟩ : Obs) ∈ validObs [⟨some 5, some 1⟩, ⟨some 5, some 2⟩] := by
  have hsort : ([⟨5, 2⟩, ⟨5, 1⟩] : List Obs).Sorted dateLe := by
    simp [List.Sorted, dateLe]
  have hperm : ([⟨5, 2⟩, ⟨5, 1⟩] : List Obs).Perm
      (validObs [⟨some 5, some 1⟩, ⟨some 5, some 2⟩]) := by
    rw [show validObs [⟨some 5, some 1⟩, ⟨some 5, some 2⟩] = [⟨5, 1⟩, ⟨5, 2⟩] from rfl]
    exact List.Perm.swap _ _ _
  have hspec := temporal_integrity_any_order_spec
    [⟨some 5, some 1⟩, ⟨some 5, some 2⟩] [⟨5, 2⟩, ⟨5, 1⟩] hsort hperm
  refine ⟨⟨hsort, hperm⟩, hspec.1, ?_⟩
  exact hspec.2.1 ⟨5, 2⟩ (by simp [dedupFirstAux])

theorem validObs_mem (xs : List Candidate) (o : Obs) (h : o ∈ validObs xs) :
    ∃ c ∈ xs, c.date = some o.date ∧ c.value = some o.value := by
  rw [validObs, List.mem_filterMap] at h
  rcases h with ⟨c, hc, hmap⟩
  rcases hd : c.date with _ | d <;> rcases hv : c.value with _ | v <;>
    rw [hd, hv] at hmap <;> simp at hmap
  rw [← hmap]
  exact ⟨c, hc, hd, hv⟩

/-- **C7**: whenever the bulk-export table has a product column, every row
of the normalized output originates from an input row whose geography
lower-cases to exactly `canada` and whose category cell trims to exactly
`All-items` — superstring variants such as `All-items excluding food`
cannot contribute a row — and the output's date and value are that row's
parsed `ref_date` and `value` cells. -/
theorem statcan_filters_exact (t : Table) (pc : String) (out : List Obs)
    (hp : findProductCol (lowerCols t) = some pc)
    (h : process_statcan t = Except.ok out) :
    ∀ o ∈ out, ∃ row ∈ t.rows,
      strLower (cellOf (lowerCols t) row "geo") = "canada"
      ∧ strTrim (cellOf (lowerCols t) row pc) = "All-items"
      ∧ parseMonth (cellOf (lowerCols t) row "ref_date") = some o.date
      ∧ parseDecimal (cellOf (lowerCols t) row "value") = some o.value := by
  intro o ho
  rw [process_statcan] at h
  by_cases hg : "geo" ∈ lowerCols t
  case neg => rw [if_pos hg] at h; cases h
  rw [if_neg (not_not_intro hg), hp] at h
  by_cases hrd : "ref_date" ∈ lowerCols t
  case neg => rw [if_pos hrd] at h; cases h
  rw [if_neg (not_not_intro hrd)] at h
  by_cases hvc : "value" ∈ lowerCols t
  case neg => rw [if_pos hvc] at h; cases h
  rw [if_neg (not_not_intro hvc)] at h
  have hout : temporal_integrity (statcanCandidates (lowerCols t)
      (((t.rows.filter fun r => strLower (cellOf (lowerCols t) r "geo") == "canada").filter
        fun r => strTrim (cellOf (lowerCols t) r pc) == "All-items"))) = out := by
    exact Except.ok.inj h
  rw [← hout] at ho
  have hvalid := temporal_integrity_mem_valid _ o ho
  rcases validObs_mem _ o hvalid with ⟨c, hc, hcd, hcv⟩
  rw [statcanCandidates, List.mem_map] at hc
  rcases hc with ⟨row, hrow, hmk⟩
  rcases List.mem_filter.mp hrow with ⟨hrow2, hcat⟩
  rcases List.mem_filter.mp hrow2 with ⟨hrow3, hgeo⟩
  refine ⟨row, hrow3, ?_, ?_, ?_, ?_⟩
  · exact eq_of_beq hgeo
  · exact eq_of_beq hcat
  · rw [show parseMonth (cellOf (lowerCols t) row "ref_date") = c.date from by rw [← hmk]]
    exact hcd
  · rw [show parseDecimal (cellOf (lowerCols t) row "value") = c.value from by rw [← hmk]]
    exact hcv

/-- Witness for `statcan_filters_exact` at `multiGeoTable`: the output row
for month `2024-02` (index `24289`) with value `110` traces back to an
input row passing both exact filters. -/
theorem statcan_filters_exact_witness :
    process_statcan multiGeoTable = Except.ok [⟨24288, 100⟩, ⟨24289, 110⟩]
    ∧ ∃ row ∈ multiGeoTable.rows,
        strLower (cellOf (lowerCols multiGeoTable) row "geo") = "canada"
        ∧ strTrim (cellOf (lowerCols multiGeoTable) row "products and product groups")
            = "All-items"
        ∧ parseMonth (cellOf (lowerCols multiGeoTable) row "ref_date")
            = some (⟨24289, 110⟩ : Obs).date
        ∧ parseDecimal (cellOf (lowerCols multiGeoTable) row "value")
            = some (⟨24289, 110⟩ : Obs).value := by
  have hp : findProductCol (lowerCols multiGeoTable) = some "products and product groups" := by
    decide
  have h : process_statcan multiGeoTable = Except.ok [⟨24288, 100⟩, ⟨24289, 110⟩] := by
    simp +decide [process_statcan, multiGeoTable, lowerCols, strLower, strTrim, trimChars,
      charLower, isSpaceChar, cellOf, findProductCol, strContains, listStartsWith,
      statcanCandidates, temporal_integrity, validObs, sortByDate, dedupFirstAux, parseMonth,
      parseDecimal, splitCharAux, natOfChars, digitVal, List.insertionSort, List.orderedInsert,
      dateLe]
  refine ⟨h, statcan_filters_exact multiGeoTable _ _ hp h ⟨24289, 110⟩ ?_⟩
  simp

theorem parseDecimal_sentinel : parseDecimal "." = none := by decide

/-- **C8** (amended): the FRED normalizer coerces the missing-value sentinel
`"."` to null (never to zero and never to a literal string), but it does NOT
drop the row: the returned frame has exactly one row per observation, and
the sentinel observation's row is present with a null value — it does reach
the rate-calculation step. -/
theorem process_fred_keeps_sentinel_rows (raw : List FredObsJson) (rows : List FredRow)
    (h : process_fred raw = Except.ok rows) :
    rows.length = raw.length
    ∧ ∀ (i : Nat) (o : FredObsJson) (r : FredRow),
        raw[i]? = some o → rows[i]? = some r → o.value = some "." →
        r.cpi_value = none := by
  induction raw generalizing rows with
  | nil =>
    rw [process_fred] at h
    cases h
    refine ⟨rfl, ?_⟩
    intro i o r h1 _ _
    simp at h1
  | cons x rest ih =>
    rw [process_fred] at h
    rcases hdc : fredDateCell x.date with e | d
    · rw [hdc] at h; exact absurd h (by simp)
    rw [hdc] at h
    rcases hrest : process_fred rest with e | rows'
    · rw [hrest] at h; exact absurd h (by simp)
    rw [hrest] at h
    have hrows : rows = (⟨d, x.value.bind parseDecimal⟩ : FredRow) :: rows' :=
      (Except.ok.inj h).symm
    subst hrows
    rcases ih rows' hrest with ⟨hlen, hspec⟩
    refine ⟨by simp [hlen], ?_⟩
    intro i o r h1 h2 h3
    match i with
    | 0 =>
      have hox : o = x := by simpa using h1.symm
      have hrr : r = (⟨d, x.value.bind parseDecimal⟩ : FredRow) := by simpa using h2.symm
      rw [hox] at h3
      rw [hrr]
      show x.value.bind parseDecimal = none
      rw [h3]
      simp [parseDecimal_sentinel]
    | Nat.succ j =>
      have h1' : rest[j]? = some o := by simpa using h1
      have h2' : rows'[j]? = some r := by simpa using h2
      exact hspec j o r h1' h2' h3

/-- **C8** counterexample to the claim as stated: the observation
`{"date": "2024-05-01", "value": "."}` is NOT dropped — the FRED frame
keeps a row for that date (one row out, value null), so a row for the date
does reach the rate calculator. -/
theorem fred_sentinel_row_not_dropped :
    process_fred [⟨some "2024-05-01", some "."⟩]
        = Except.ok [⟨some (2024 * 12 + 4), none⟩]
    ∧ [(⟨some (2024 * 12 + 4), none⟩ : FredRow)].length = 1 := by
  constructor
  · simp +decide [process_fred, fredDateCell, parseMonth, parseDecimal, splitCharAux,
      natOfChars, digitVal, trimChars, isSpaceChar]
  · rfl

/-- Witness for `process_fred_keeps_sentinel_rows` at the concrete sentinel
observation. -/
theorem process_fred_keeps_sentinel_rows_witness :
    process_fred [⟨some "2024-05-01", some "."⟩]
        = Except.ok [⟨some (2024 * 12 + 4), none⟩]
    ∧ [(⟨some (2024 * 12 + 4), none⟩ : FredRow)].length = [(⟨some "2024-05-01", some "."⟩ :
        FredObsJson)].length
    ∧ (⟨some (2024 * 12 + 4), none⟩ : FredRow).cpi_value = none := by
  have h : process_fred [⟨some "2024-05-01", some "."⟩]
      = Except.ok [⟨some (2024 * 12 + 4), none⟩] := by
    simp +decide [process_fred, fredDateCell, parseMonth, parseDecimal, splitCharAux,
      natOfChars, digitVal, trimChars, isSpaceChar]
  have hspec := process_fred_keeps_sentinel_rows _ _ h
  exact ⟨h, hspec.1, hspec.2 0 ⟨some "2024-05-01", some "."⟩
    ⟨some (2024 * 12 + 4), none⟩ (by simp) (by simp) rfl⟩

end MacroKpi
